import Mathlib

/-
Shallow embedding of the cad-bot DXF pipeline.

Sources embedded:
  src/actions/file_handler.py : DataProcessor.get_entities_by_layer,
    get_points_from_layer, move_objects, get_vector_from_two_points,
    and the framing part of convert_to_image.
  src/save_as_image.py : extract_lines, process_dimension, plot_dxf.

Coordinates are modelled as real numbers (the Python code computes with
floats); fallible attribute access is modelled with Option.
-/

/- Points: 3D coordinate triples (ezdxf locations) and 2D pairs. -/
abbrev V3 : Type := ℝ × ℝ × ℝ
abbrev V2 : Type := ℝ × ℝ
/- A line segment: ordered pair of 2D points, the render primitive. -/
abbrev Seg : Type := V2 × V2
/- An RGB color, three channels. -/
abbrev Color : Type := ℝ × ℝ × ℝ

/-
Entity data model. ezdxf (the external drawing library) exposes typed
entities with per-kind attributes; the kinds and the attributes the
repository reads are listed in spec section 3. A CIRCLE has no
start_angle / end_angle attribute (the code reads them with
getattr(..., 0) and getattr(..., 360)), an ARC has both, so the two get
separate constructors. A DIMENSION explodes (virtual_entities) into
primitive sub-entities, so it is kept one level above the primitive
kinds.
-/
inductive EntData : Type where
  | point (location : V3)
  | line (s e : V3)
  | circle (center : V3) (radius : ℝ)
  | arc (center : V3) (radius : ℝ) (start_angle end_angle : ℝ)
  | polyline (pts : List V2) (closed : Bool)
  | mtext (ins : V3) (txt : String)
  | insert (name : String) (ins : V3)
  | other

/- A primitive entity: its layer name plus kind-specific data. -/
structure Ent : Type where
  layer : String
  data : EntData

/-
A DIMENSION entity. text_midpoint and the measurement are optional:
none models the attribute being absent (hasattr false / AttributeError
raised on access). virtual is the exploded sub-geometry returned by
virtual_entities().
-/
structure Dim : Type where
  layer : String
  virtual : List Ent
  text_midpoint : Option V2
  measurement : Option ℝ

/- A model-space entity: a primitive or a dimension. -/
inductive Entity : Type where
  | prim (e : Ent)
  | dim (d : Dim)

def Entity.layer : Entity → String
  | .prim e => e.layer
  | .dim d => d.layer

/- The dxftype() tag of an entity. -/
def Entity.dxftype : Entity → String
  | .prim ⟨_, .point _⟩ => "POINT"
  | .prim ⟨_, .line _ _⟩ => "LINE"
  | .prim ⟨_, .circle _ _⟩ => "CIRCLE"
  | .prim ⟨_, .arc _ _ _ _⟩ => "ARC"
  | .prim ⟨_, .polyline _ _⟩ => "POLYLINE"
  | .prim ⟨_, .mtext _ _⟩ => "MTEXT"
  | .prim ⟨_, .insert _ _⟩ => "INSERT"
  | .prim ⟨_, .other⟩ => "OTHER"
  | .dim _ => "DIMENSION"

/- Shift a 2D point by a 2D vector. -/
def shift2 (v p : V2) : V2 := (p.1 + v.1, p.2 + v.2)

/- Shift a 3D point by a 3D vector. -/
def shift3 (v p : V3) : V3 := (p.1 + v.1, p.2.1 + v.2.1, p.2.2 + v.2.2)

/-
Modelled from the spec: obj.translate(dx, dy, dz) is an ezdxf call (the
external drawing-model library, not in this repository); spec section
4.5 describes it as a rigid translation applied to the entity geometry,
mutating it in place. Every coordinate attribute is shifted by the
vector; non-geometric attributes are unchanged.
-/
def EntData.translate (v : V3) : EntData → EntData
  | .point location => .point (shift3 v location)
  | .line s e => .line (shift3 v s) (shift3 v e)
  | .circle center radius => .circle (shift3 v center) radius
  | .arc center radius a b => .arc (shift3 v center) radius a b
  | .polyline pts closed => .polyline (pts.map (shift2 (v.1, v.2.1))) closed
  | .mtext ins txt => .mtext (shift3 v ins) txt
  | .insert name ins => .insert name (shift3 v ins)
  | .other => .other

def Ent.translate (v : V3) (e : Ent) : Ent := ⟨e.layer, e.data.translate v⟩

def Dim.translate (v : V3) (d : Dim) : Dim :=
  ⟨d.layer, d.virtual.map (Ent.translate v),
    d.text_midpoint.map (shift2 (v.1, v.2.1)), d.measurement⟩

def Entity.translate (v : V3) : Entity → Entity
  | .prim e => .prim (e.translate v)
  | .dim d => .dim (d.translate v)

/-
DataProcessor.get_entities_by_layer: fetch all entities from a given
layer. The model space is the list of top-level entities.
-/
def get_entities_by_layer (msp : List Entity) (layer_name : String) : List Entity :=
  msp.filter (fun e => e.layer == layer_name)

/-
DataProcessor.get_points_from_layer: fetch all POINT entities from a
given layer, as coordinate triples. Source comprehension:
[(e.dxf.location.x, .y, .z) for e in get_entities_by_layer(layer_name)
 if e.dxftype() == "POINT"], rendered as a filterMap.
-/
def get_points_from_layer (msp : List Entity) (layer_name : String) : List V3 :=
  (get_entities_by_layer msp layer_name).filterMap fun e =>
    match e with
    | .prim ⟨_, .point location⟩ => some location
    | _ => none

/-
DataProcessor.get_vector_from_two_points: compute the unit vector from
p1 to p2, or the zero vector when the distance is zero.
-/
noncomputable def get_vector_from_two_points (p1 p2 : V3) : V3 :=
  let dx := p2.1 - p1.1
  let dy := p2.2.1 - p1.2.1
  let dz := p2.2.2 - p1.2.2
  let length := Real.sqrt (dx ^ 2 + dy ^ 2 + dz ^ 2)
  if length ≠ 0 then (dx / length, dy / length, dz / length) else (0, 0, 0)

/-
The move vector of DataProcessor.move_objects: the unit vector between
the two reference points, scaled coordinate-wise by the distance
(tuple(coord * distance for coord in move_vector)).
-/
noncomputable def moveVector (distance : ℝ) (p1 p2 : V3) : V3 :=
  let mv := get_vector_from_two_points p1 p2
  (mv.1 * distance, mv.2.1 * distance, mv.2.2 * distance)

/-
DataProcessor.move_objects: move all objects of the hard-coded target
layer along the vector between the two points of the hard-coded point
layer. The object argument is accepted but never read by the body. The
result pair is (raised exception message if any, model space after the
call); the ValueError is raised before any entity is touched, so in the
error case the model space is returned unchanged. Mutating every
fetched target-layer entity in place is rendered as mapping the
translation over the target-layer entities of the model space; the
hasattr(obj, "dxf") guard always holds for ezdxf entities.
-/
noncomputable def move_objects (object : String) (distance : ℝ)
    (msp : List Entity) : Option String × List Entity :=
  let points := get_points_from_layer msp "A02_Wall"
  if points.length ≠ 2 then
    (some "Point layer must contain exactly two points.", msp)
  else
    let mv := moveVector distance (points.getD 0 (0, 0, 0)) (points.getD 1 (0, 0, 0))
    (none, msp.map fun e =>
      if e.layer == "A10_Wood- Door Window Ventilator" then e.translate mv else e)

/- np.radians: degrees to radians. -/
noncomputable def radians (deg : ℝ) : ℝ := deg * (Real.pi / 180)

/-
np.linspace(a, b, n): n evenly spaced values from a to b inclusive,
value i being a + i * ((b - a) / (n - 1)).
-/
noncomputable def linspace (a b : ℝ) (n : ℕ) : List ℝ :=
  (List.range n).map fun i : ℕ => a + (i : ℝ) * ((b - a) / ((n : ℝ) - 1))

/-
Consecutive pairs of a list:
[(l[i], l[i + 1]) for i in range(len(l) - 1)].
-/
def consecutivePairs {α : Type} (l : List α) : List (α × α) := l.zip l.tail

/-
The sampled points of the CIRCLE / ARC branch of extract_lines:
theta = np.linspace(start, end, 100) and
np.column_stack([cx + r * cos(theta), cy + r * sin(theta)]).
-/
noncomputable def circle_samples (center : V2) (radius a b : ℝ) : List V2 :=
  (linspace a b 100).map fun θ =>
    (center.1 + radius * Real.cos θ, center.2 + radius * Real.sin θ)

/-
Python round(x, 2): the measurement rounded to 2 decimal places.
Python rounds halves to even; Mathlib round rounds halves up — the two
agree except at exact ties, which no claim depends on.
-/
noncomputable def round2 (x : ℝ) : ℝ := ((round (x * 100) : ℤ) : ℝ) / 100

/-
A text label: position plus the numeric value it displays (the source
stores str(value); the string formatting itself is not modelled).
-/
structure TextAnn : Type where
  position : V2
  txt : ℝ

/-
extract_lines (src/save_as_image.py): extract line segments from a DXF
entity, shifted by the insertion offset; also returns the layer color,
layer_colors.get(layer, (0, 0, 0)). Kinds without a branch (POINT,
MTEXT, INSERT, DIMENSION, other) fall through to ([], color).
-/
noncomputable def extract_lines (entity : Entity) (insert_point : V2)
    (layer_colors : String → Option Color) : List Seg × Color :=
  let color := (layer_colors entity.layer).getD (0, 0, 0)
  match entity with
  | .prim ⟨_, .line s e⟩ =>
      ([((s.1 + insert_point.1, s.2.1 + insert_point.2),
         (e.1 + insert_point.1, e.2.1 + insert_point.2))], color)
  | .prim ⟨_, .circle center radius⟩ =>
      (consecutivePairs (circle_samples
        (center.1 + insert_point.1, center.2.1 + insert_point.2) radius
        (radians 0) (radians 360)), color)
  | .prim ⟨_, .arc center radius a b⟩ =>
      (consecutivePairs (circle_samples
        (center.1 + insert_point.1, center.2.1 + insert_point.2) radius
        (radians a) (radians b)), color)
  | .prim ⟨_, .polyline pts closed⟩ =>
      let points := pts.map fun p => (p.1 + insert_point.1, p.2 + insert_point.2)
      let points := if closed && !points.isEmpty
        then points ++ [points.headD (0, 0)] else points
      (consecutivePairs points, color)
  | _ => ([], color)

/-
process_dimension (src/save_as_image.py): explode the dimension into
primitives (virtual_entities), extract segments from each; then, when
the entity has a text_midpoint and get_measurement succeeds, emit one
label with the measurement rounded to 2 decimal places. A missing
attribute raises AttributeError, which the bare except catches: the
segments gathered so far are kept and no label is emitted. On a
non-dimension entity virtual_entities itself raises, giving ([], []).
-/
noncomputable def process_dimension (entity : Entity)
    (layer_colors : String → Option Color) : List Seg × List TextAnn :=
  match entity with
  | .dim d =>
      let lines := (d.virtual.map fun e =>
        (extract_lines (.prim e) (0, 0) layer_colors).1).flatten
      let anns : List TextAnn :=
        match d.text_midpoint with
        | some tm =>
          match d.measurement with
          | some m => [⟨tm, round2 m⟩]
          | none => []
        | none => []
      (lines, anns)
  | .prim _ => ([], [])

/- The lists accumulated by the entity loop of plot_dxf. -/
structure CollectOut : Type where
  all_lines : List Seg
  all_colors : List Color
  dimension_lines : List Seg
  dimension_colors : List Color
  all_anns : List TextAnn

/-
The entity loop of plot_dxf (src/save_as_image.py): INSERT resolves its
block and extracts each child at the insertion point with the insert
entity's layer color; DIMENSION (and ROTATED_DIMENSION) goes through
process_dimension, its segments drawn dark blue (0, 0, 0.8); every
other entity goes through extract_lines with offset (0, 0).
-/
noncomputable def plot_step (blocks : String → List Ent)
    (layer_colors : String → Option Color) (acc : CollectOut)
    (entity : Entity) : CollectOut :=
  match entity with
  | .prim ⟨l, .insert name ins⟩ =>
      let color := (layer_colors l).getD (0, 0, 0)
      let ls := ((blocks name).map fun e =>
        (extract_lines (.prim e) (ins.1, ins.2.1) layer_colors).1).flatten
      { acc with
        all_lines := acc.all_lines ++ ls,
        all_colors := acc.all_colors ++ List.replicate ls.length color }
  | .dim d =>
      let (dls, danns) := process_dimension (.dim d) layer_colors
      { acc with
        dimension_lines := acc.dimension_lines ++ dls,
        dimension_colors := acc.dimension_colors ++ List.replicate dls.length (0, 0, 0.8),
        all_anns := acc.all_anns ++ danns }
  | e =>
      let (ls, lc) := extract_lines e (0, 0) layer_colors
      { acc with
        all_lines := acc.all_lines ++ ls,
        all_colors := acc.all_colors ++ List.replicate ls.length lc }

noncomputable def plot_collect (blocks : String → List Ent)
    (layer_colors : String → Option Color) (msp : List Entity) : CollectOut :=
  List.foldl (plot_step blocks layer_colors) (⟨[], [], [], [], []⟩ : CollectOut) msp

/- Minimum of a list of reals; np.min, defined on non-empty input. -/
def listMin : List ℝ → ℝ
  | [] => 0
  | x :: xs => xs.foldl min x

/- Maximum of a list of reals; np.max, defined on non-empty input. -/
def listMax : List ℝ → ℝ
  | [] => 0
  | x :: xs => xs.foldl max x

/- Both endpoints of every segment, in order: np.concatenate(lines). -/
def seg_points (segs : List Seg) : List V2 :=
  segs.flatMap fun sg => [sg.1, sg.2]

/-
The view limits of plot_dxf (src/save_as_image.py lines 136-141):
bounding box over all endpoints of all_lines + dimension_lines, then
one shared margin max(width, height) * 0.05 on both axes. Result is
((xlim low, xlim high), (ylim low, ylim high)). Callers only reach this
with a non-empty segment list (np.concatenate on an empty one raises).
-/
noncomputable def plot_frame (segs : List Seg) : V2 × V2 :=
  let pts := seg_points segs
  let min_x := listMin (pts.map Prod.fst)
  let min_y := listMin (pts.map Prod.snd)
  let max_x := listMax (pts.map Prod.fst)
  let max_y := listMax (pts.map Prod.snd)
  let margin := (max (max_x - min_x) (max_y - min_y)) * 0.05
  ((min_x - margin, max_x + margin), (min_y - margin, max_y + margin))

/-
The outcome of plot_dxf. nothingRendered is the early return (prints
"No entities found to plot.", writes no file); renderFailure is the
ValueError np.concatenate raises when the early return was skipped but
both segment lists are empty; rendered carries the view limits set just
before the single savefig call writes the image file.
-/
inductive PlotOutcome : Type where
  | nothingRendered
  | renderFailure
  | rendered (xlim ylim : V2)

/-
plot_dxf (src/save_as_image.py): collect segments and labels from the
model space, return early when all three lists are empty, otherwise set
the view limits from the concatenated segment lists and write the file.
-/
noncomputable def plot_dxf (blocks : String → List Ent)
    (layer_colors : String → Option Color) (msp : List Entity) : PlotOutcome :=
  let c := plot_collect blocks layer_colors msp
  if c.all_lines.isEmpty && c.dimension_lines.isEmpty && c.all_anns.isEmpty then
    .nothingRendered
  else
    match c.all_lines ++ c.dimension_lines with
    | [] => .renderFailure
    | s :: rest =>
      let f := plot_frame (s :: rest)
      .rendered f.1 f.2

/-
The view limits of DataProcessor.convert_to_image
(src/actions/file_handler.py lines 168-175): guarded by "if lines:"
(none when the list is empty, the limits are then left unset), bounding
box over all endpoints, then a separate margin per axis:
margin_x = (max_x - min_x) * 0.05 and margin_y = (max_y - min_y) * 0.05.
-/
noncomputable def convert_image_limits (lines : List Seg) : Option (V2 × V2) :=
  match lines with
  | [] => none
  | s :: rest =>
    let pts := seg_points (s :: rest)
    let min_x := listMin (pts.map Prod.fst)
    let min_y := listMin (pts.map Prod.snd)
    let max_x := listMax (pts.map Prod.fst)
    let max_y := listMax (pts.map Prod.snd)
    let margin_x := (max_x - min_x) * 0.05
    let margin_y := (max_y - min_y) * 0.05
    some ((min_x - margin_x, max_x + margin_x), (min_y - margin_y, max_y + margin_y))

/-
The mutable lists of DataProcessor.convert_to_image: lines, texts
(x, y, text, color) and the dim_positions set (modelled as the list of
inserted positions, membership-tested before insertion).
-/
structure ConvState : Type where
  lines : List Seg
  texts : List (V2 × String × Color)
  dim_positions : List V2

/-
The primitive branches of add_entity inside convert_to_image
(src/actions/file_handler.py lines 80-125 and 144-152): LINE, CIRCLE,
ARC and POLYLINE append segments exactly like extract_lines; MTEXT
appends one text tuple with the literal text content and the line
color; every other primitive kind appends nothing.
-/
noncomputable def add_ent (line_color : Color) (st : ConvState) (e : Ent)
    (insert_point : V2) : ConvState :=
  match e with
  | ⟨_, .line s q⟩ =>
      { st with lines := st.lines ++
          [((s.1 + insert_point.1, s.2.1 + insert_point.2),
            (q.1 + insert_point.1, q.2.1 + insert_point.2))] }
  | ⟨_, .circle center radius⟩ =>
      { st with lines := st.lines ++ consecutivePairs (circle_samples
          (center.1 + insert_point.1, center.2.1 + insert_point.2) radius
          (radians 0) (radians 360)) }
  | ⟨_, .arc center radius a b⟩ =>
      { st with lines := st.lines ++ consecutivePairs (circle_samples
          (center.1 + insert_point.1, center.2.1 + insert_point.2) radius
          (radians a) (radians b)) }
  | ⟨_, .polyline pts closed⟩ =>
      let points := pts.map fun p => (p.1 + insert_point.1, p.2 + insert_point.2)
      let points := if closed && !points.isEmpty
        then points ++ [points.headD (0, 0)] else points
      { st with lines := st.lines ++ consecutivePairs points }
  | ⟨_, .mtext ins txt⟩ =>
      { st with texts := st.texts ++
          [((ins.1 + insert_point.1, ins.2.1 + insert_point.2), txt, line_color)] }
  | _ => st

/-
The DIMENSION branch of add_entity (src/actions/file_handler.py lines
126-143), under "try ... except Exception: pass". dim_value is the
rounded measurement when get_measurement exists, else the empty string
(falsy, like the value 0.0); pos reads text_midpoint, raising when the
attribute is absent — the except then also skips the virtual-entities
loop. When dim_value is truthy and pos is unseen, pos is recorded in
dim_positions; the texts.append beside it is commented out in the
source, so no text is emitted here. Finally each virtual entity is
added with the same offset (children are primitives, so the nested call
is add_ent).
-/
open Classical in
noncomputable def add_entity (line_color : Color) (st : ConvState)
    (entity : Entity) (insert_point : V2) : ConvState :=
  match entity with
  | .prim e => add_ent line_color st e insert_point
  | .dim d =>
    match d.text_midpoint with
    | none => st
    | some tm =>
      let pos := (tm.1 + insert_point.1, tm.2 + insert_point.2)
      let dim_value : Option ℝ := d.measurement.map round2
      let st :=
        if (match dim_value with | some v => v ≠ 0 | none => False) ∧
            pos ∉ st.dim_positions then
          { st with dim_positions := st.dim_positions ++ [pos] }
        else st
      d.virtual.foldl (fun s e => add_ent line_color s e insert_point) st

/- Concrete inputs used to evaluate the embedded code at specific data. -/

/- A POINT entity on the reference layer. -/
def wallPoint (p : V3) : Entity := .prim ⟨"A02_Wall", .point p⟩

/- A LINE entity on the target layer of move_objects. -/
def doorLine (a b : V3) : Entity := .prim ⟨"A10_Wood- Door Window Ventilator", .line a b⟩

/- A model space whose reference layer holds a single point. -/
def mspOnePoint : List Entity := [wallPoint (0, 0, 0)]

/-
The drawing of the spec example: reference points (0,0,0) and (10,0,0)
and a target-layer line from (0,0,0) to (1,0,0).
-/
def mspTwoPoints : List Entity :=
  [wallPoint (0, 0, 0), wallPoint (10, 0, 0), doorLine (0, 0, 0) (1, 0, 0)]

/- A DIMENSION entity with text anchor (0, 0) and measurement m. -/
def dimAt (m : ℝ) : Entity := .dim ⟨"DIMS", [], some (0, 0), some m⟩

/- Two dimensions sharing the same text-anchor position. -/
def mspTwoDims : List Entity := [dimAt 1, dimAt 2]

/- A model space holding one unsupported entity: nothing extractable. -/
def mspUnsupported : List Entity := [.prim ⟨"L", .other⟩]

/- A model space holding the single line from (0,0) to (10,0). -/
def mspOneLine : List Entity := [.prim ⟨"W", .line (0, 0, 0) (10, 0, 0)⟩]

/- An empty block table. -/
def noBlocks : String → List Ent := fun _ => []

/- A layer-color table with no entries: every lookup falls back. -/
def noColors : String → Option Color := fun _ => none

/- The single segment from (0, 0) to (10, 0). -/
def seg0 : Seg := ((0, 0), (10, 0))

/- Theorems. -/

/- Helper: consecutive pairs of a list number one less than its elements. -/
theorem consecutivePairs_length {α : Type} (l : List α) :
    (consecutivePairs l).length = l.length - 1 := by
  simp [consecutivePairs]

/- Helper: the i-th consecutive pair is (l[i], l[i + 1]). -/
theorem consecutivePairs_getElem {α : Type} (l : List α) (i : ℕ)
    (h : i + 1 < l.length) :
    (consecutivePairs l).get ⟨i, by rw [consecutivePairs_length]; omega⟩ =
      (l.get ⟨i, by omega⟩, l.get ⟨i + 1, h⟩) := by
  simp only [List.get_eq_getElem, consecutivePairs]
  rw [List.getElem_zip]
  congr 1
  rw [List.getElem_tail]

/--
C1: for every drawing whose reference layer "A02_Wall" holds a number
of POINT entities other than two, move_objects raises the validation
ValueError and returns the model space unchanged (no entity coordinate
is touched, the raise precedes the translation loop); with exactly two
reference points no such error is raised.
-/
theorem move_objects_two_point_precondition (msp : List Entity)
    (object : String) (distance : ℝ) :
    ((get_points_from_layer msp "A02_Wall").length ≠ 2 →
      move_objects object distance msp =
        (some "Point layer must contain exactly two points.", msp)) ∧
    ((get_points_from_layer msp "A02_Wall").length = 2 →
      (move_objects object distance msp).1 = none) := by
  constructor
  · intro h
    simp only [move_objects, if_pos h]
  · intro h
    simp only [move_objects, h]
    norm_num

/--
Witness for C1: a one-point reference layer errors and leaves the
drawing unchanged; the two-point drawing of the spec example does not
raise the validation error.
-/
theorem move_objects_two_point_precondition_witness :
    ((get_points_from_layer mspOnePoint "A02_Wall").length ≠ 2 ∧
      move_objects "door" 1 mspOnePoint =
        (some "Point layer must contain exactly two points.", mspOnePoint)) ∧
    ((get_points_from_layer mspTwoPoints "A02_Wall").length = 2 ∧
      (move_objects "door" 1 mspTwoPoints).1 = none) := by
  have h1 : (get_points_from_layer mspOnePoint "A02_Wall").length ≠ 2 := by
    decide
  have h2 : (get_points_from_layer mspTwoPoints "A02_Wall").length = 2 := by
    decide
  exact ⟨⟨h1, (move_objects_two_point_precondition mspOnePoint "door" 1).1 h1⟩,
    ⟨h2, (move_objects_two_point_precondition mspTwoPoints "door" 1).2 h2⟩⟩

/--
C10: move_objects reads neither the target layer nor the reference
layer from its object argument — both are fixed string constants in the
body — so runs that differ only in the object-name argument produce
identical results on every drawing and distance.
-/
theorem move_objects_independent_of_object_name (o₁ o₂ : String)
    (distance : ℝ) (msp : List Entity) :
    move_objects o₁ distance msp = move_objects o₂ distance msp := rfl

/- Helper: the square root of 100. -/
theorem sqrt_hundred : Real.sqrt 100 = 10 := by
  rw [show (100 : ℝ) = 10 ^ 2 by norm_num, Real.sqrt_sq (by norm_num : (0 : ℝ) ≤ 10)]

/--
C8: for distinct 3D points, get_vector_from_two_points returns a
unit-length vector (its squared coordinates sum to 1) that is a
positive multiple of p2 - p1, the direction from p1 to p2; for equal
points it returns the zero vector through the guarded branch, with no
division by zero (the real-number model has no NaN).
-/
theorem get_vector_unit_or_zero (p1 p2 : V3) :
    (p1 ≠ p2 →
      (get_vector_from_two_points p1 p2).1 ^ 2 +
        (get_vector_from_two_points p1 p2).2.1 ^ 2 +
        (get_vector_from_two_points p1 p2).2.2 ^ 2 = 1 ∧
      ∃ c : ℝ, 0 < c ∧ get_vector_from_two_points p1 p2 =
        (c * (p2.1 - p1.1), c * (p2.2.1 - p1.2.1), c * (p2.2.2 - p1.2.2))) ∧
    get_vector_from_two_points p1 p1 = (0, 0, 0) := by
  constructor
  · intro hne
    set dx := p2.1 - p1.1 with hdx
    set dy := p2.2.1 - p1.2.1 with hdy
    set dz := p2.2.2 - p1.2.2 with hdz
    have hs : 0 < dx ^ 2 + dy ^ 2 + dz ^ 2 := by
      have h0 : dx ≠ 0 ∨ dy ≠ 0 ∨ dz ≠ 0 := by
        by_contra hc
        push_neg at hc
        obtain ⟨h1, h2, h3⟩ := hc
        apply hne
        rw [Prod.ext_iff, Prod.ext_iff]
        refine ⟨by linarith [sub_eq_zero.mp h1], by linarith [sub_eq_zero.mp h2],
          by linarith [sub_eq_zero.mp h3]⟩
      rcases h0 with h | h | h <;>
        nlinarith [pow_two_pos_of_ne_zero h, sq_nonneg dx, sq_nonneg dy, sq_nonneg dz]
    have hL : 0 < Real.sqrt (dx ^ 2 + dy ^ 2 + dz ^ 2) := Real.sqrt_pos.mpr hs
    have hval : get_vector_from_two_points p1 p2 =
        (dx / Real.sqrt (dx ^ 2 + dy ^ 2 + dz ^ 2),
         dy / Real.sqrt (dx ^ 2 + dy ^ 2 + dz ^ 2),
         dz / Real.sqrt (dx ^ 2 + dy ^ 2 + dz ^ 2)) := by
      simp only [get_vector_from_two_points, ← hdx, ← hdy, ← hdz]
      rw [if_pos (ne_of_gt hL)]
    constructor
    · rw [hval]
      have hsq : Real.sqrt (dx ^ 2 + dy ^ 2 + dz ^ 2) ^ 2 =
          dx ^ 2 + dy ^ 2 + dz ^ 2 := Real.sq_sqrt hs.le
      show (dx / Real.sqrt (dx ^ 2 + dy ^ 2 + dz ^ 2)) ^ 2 +
        (dy / Real.sqrt (dx ^ 2 + dy ^ 2 + dz ^ 2)) ^ 2 +
        (dz / Real.sqrt (dx ^ 2 + dy ^ 2 + dz ^ 2)) ^ 2 = 1
      rw [div_pow, div_pow, div_pow, div_add_div_same, div_add_div_same, hsq]
      exact div_self (ne_of_gt hs)
    · refine ⟨1 / Real.sqrt (dx ^ 2 + dy ^ 2 + dz ^ 2), by positivity, ?_⟩
      rw [hval, Prod.ext_iff, Prod.ext_iff]
      refine ⟨by ring, by ring, by ring⟩
  · simp [get_vector_from_two_points]

/--
Witness for C8: the unit vector from (0,0,0) to (3,4,0) has unit
length and positive direction, and equal points give the zero vector.
-/
theorem get_vector_unit_or_zero_witness :
    ((0, 0, 0) : V3) ≠ (3, 4, 0) ∧
    ((get_vector_from_two_points (0, 0, 0) (3, 4, 0)).1 ^ 2 +
      (get_vector_from_two_points (0, 0, 0) (3, 4, 0)).2.1 ^ 2 +
      (get_vector_from_two_points (0, 0, 0) (3, 4, 0)).2.2 ^ 2 = 1 ∧
     ∃ c : ℝ, 0 < c ∧ get_vector_from_two_points (0, 0, 0) (3, 4, 0) =
       (c * (3 - 0), c * (4 - 0), c * (0 - 0))) ∧
    get_vector_from_two_points (5, 6, 7) (5, 6, 7) = (0, 0, 0) := by
  have hne : ((0, 0, 0) : V3) ≠ (3, 4, 0) := by
    norm_num [Prod.ext_iff]
  exact ⟨hne, (get_vector_unit_or_zero (0, 0, 0) (3, 4, 0)).1 hne,
    (get_vector_unit_or_zero (5, 6, 7) (5, 6, 7)).2⟩

/- Helper: the move vector of the spec example, evaluated. -/
theorem moveVector_example :
    moveVector 0.5 ((0 : ℝ), 0, 0) ((10 : ℝ), 0, 0) = ((0.5 : ℝ), 0, 0) := by
  simp only [moveVector, get_vector_from_two_points]
  norm_num [sqrt_hundred]

/--
Counterexample to C2: with reference points (0,0,0) and (10,0,0) and
distance 0.5 the translation computed by move_objects is not (5,0,0)
(the code scales the unit vector, giving (0.5,0,0)), so the target line
does not end up at start (5,0,0) / end (6,0,0).
-/
theorem move_distance_example_counterexample :
    ¬ (moveVector 0.5 ((0 : ℝ), 0, 0) ((10 : ℝ), 0, 0) = ((5 : ℝ), 0, 0) ∧
       (move_objects "door" 0.5 mspTwoPoints).2 =
         [wallPoint (0, 0, 0), wallPoint (10, 0, 0),
          doorLine (5, 0, 0) (6, 0, 0)]) := by
  intro h
  have h1 := h.1
  rw [moveVector_example, Prod.ext_iff] at h1
  norm_num at h1

/--
C2 as amended: with reference points (0,0,0) and (10,0,0) and distance
0.5 the translation computed by move_objects is (0.5,0,0) — the unit
vector (1,0,0) scaled by the distance — and applying the move to a
target line with start (0,0,0) and end (1,0,0) yields start (0.5,0,0)
and end (1.5,0,0).
-/
theorem move_distance_example_amended :
    moveVector 0.5 ((0 : ℝ), 0, 0) ((10 : ℝ), 0, 0) = ((0.5 : ℝ), 0, 0) ∧
    move_objects "door" 0.5 mspTwoPoints =
      (none, [wallPoint (0, 0, 0), wallPoint (10, 0, 0),
              doorLine (0.5, 0, 0) (1.5, 0, 0)]) := by
  refine ⟨moveVector_example, ?_⟩
  have hpts : get_points_from_layer mspTwoPoints "A02_Wall" =
      [((0 : ℝ), (0 : ℝ), (0 : ℝ)), ((10 : ℝ), (0 : ℝ), (0 : ℝ))] := rfl
  have hlen : ¬ ((get_points_from_layer mspTwoPoints "A02_Wall").length ≠ 2) := by
    decide
  simp only [move_objects, if_neg hlen]
  rw [hpts]
  simp only [List.getD_cons_zero, List.getD_cons_succ]
  rw [moveVector_example]
  simp [mspTwoPoints, wallPoint, doorLine, Entity.layer, Entity.translate,
    Ent.translate, EntData.translate, shift3, Prod.ext_iff]
  norm_num

/- Helper: last pair of consecutive pairs after appending one element. -/
theorem consecutivePairs_getLast_append {α : Type} (l : List α) (x : α) (h : l ≠ []) :
    (consecutivePairs (l ++ [x])).getLast? = some (l.getLast h, x) := by
  have hpos : 0 < l.length := List.length_pos.mpr h
  have hlen : (l ++ [x]).length = l.length + 1 := by simp
  have hcp : (consecutivePairs (l ++ [x])).length = l.length := by
    rw [consecutivePairs_length, hlen]
    omega
  have hix : l.length - 1 + 1 < (l ++ [x]).length := by rw [hlen]; omega
  have key := consecutivePairs_getElem (l ++ [x]) (l.length - 1) hix
  simp only [List.get_eq_getElem] at key
  rw [List.getLast?_eq_getElem?, hcp,
    List.getElem?_eq_getElem (by rw [hcp]; omega), key]
  have e1 : (l ++ [x])[l.length - 1] = l.getLast h := by
    rw [List.getElem_append_left (by omega)]
    exact (List.getLast_eq_getElem l h).symm
  have e2 : (l ++ [x])[l.length - 1 + 1] = x :=
    List.getElem_concat_length l x _ (by omega) hix
  rw [e1, e2]

/--
C3: extracting a POLYLINE with N greater or equal 2 vertices yields
exactly N - 1 segments when the closed flag is false and exactly N
segments when it is true, the last of which connects the last vertex
back to the first, each vertex shifted by the insertion offset.
-/
theorem polyline_extraction (layer : String) (p₀ p₁ : V2) (rest : List V2)
    (off : V2) (lc : String → Option Color) :
    ((extract_lines (.prim ⟨layer, .polyline (p₀ :: p₁ :: rest) false⟩) off lc).1.length
        = (p₀ :: p₁ :: rest).length - 1) ∧
    ((extract_lines (.prim ⟨layer, .polyline (p₀ :: p₁ :: rest) true⟩) off lc).1.length
        = (p₀ :: p₁ :: rest).length) ∧
    ((extract_lines (.prim ⟨layer, .polyline (p₀ :: p₁ :: rest) true⟩) off lc).1.getLast?
        = some (((((p₀ :: p₁ :: rest).getLast (by simp)).1 + off.1,
                  ((p₀ :: p₁ :: rest).getLast (by simp)).2 + off.2)),
                (p₀.1 + off.1, p₀.2 + off.2))) := by
  have hne : ((p₀ :: p₁ :: rest).map
      (fun p => (p.1 + off.1, p.2 + off.2)) : List V2) ≠ [] := by simp
  have hstep : (extract_lines (.prim ⟨layer, .polyline (p₀ :: p₁ :: rest) true⟩) off lc).1 =
      consecutivePairs (((p₀ :: p₁ :: rest).map fun p => (p.1 + off.1, p.2 + off.2)) ++
        [(p₀.1 + off.1, p₀.2 + off.2)]) := by
    simp [extract_lines]
  refine ⟨?_, ?_, ?_⟩
  · simp [extract_lines, consecutivePairs_length]
  · rw [hstep, consecutivePairs_length]
    simp
  · rw [hstep, consecutivePairs_getLast_append _ _ hne]
    rw [List.getLast_map _ _ (by simp)]

/- Helper: a circle or arc is sampled at exactly 100 points. -/
theorem circle_samples_length (center : V2) (r a b : ℝ) :
    (circle_samples center r a b).length = 100 := by
  simp only [circle_samples, linspace, List.length_map, List.length_range]

/- Helper: the i-th sampled point, written out. -/
theorem circle_samples_getElem (center : V2) (r a b : ℝ) (i : ℕ) (h : i < 100) :
    (circle_samples center r a b).get ⟨i, by rw [circle_samples_length]; omega⟩ =
      (center.1 + r * Real.cos (a + (i : ℝ) * ((b - a) / 99)),
       center.2 + r * Real.sin (a + (i : ℝ) * ((b - a) / 99))) := by
  simp only [List.get_eq_getElem, circle_samples, linspace, List.getElem_map,
    List.getElem_range]
  norm_num

/- Helper: the first sampled point sits at the start angle. -/
theorem circle_samples_head (center : V2) (r a b : ℝ) :
    (circle_samples center r a b).head? =
      some (center.1 + r * Real.cos a, center.2 + r * Real.sin a) := by
  rw [List.head?_eq_getElem?,
    List.getElem?_eq_getElem (by rw [circle_samples_length]; omega)]
  have key := circle_samples_getElem center r a b 0 (by omega)
  simp only [List.get_eq_getElem] at key
  rw [key]
  norm_num

/- Helper: the last sampled point sits at the end angle. -/
theorem circle_samples_getLast (center : V2) (r a b : ℝ) :
    (circle_samples center r a b).getLast? =
      some (center.1 + r * Real.cos b, center.2 + r * Real.sin b) := by
  rw [List.getLast?_eq_getElem?,
    List.getElem?_eq_getElem (by rw [circle_samples_length]; omega)]
  simp only [circle_samples_length]
  have key := circle_samples_getElem center r a b (100 - 1) (by omega)
  simp only [List.get_eq_getElem] at key
  rw [key]
  have harg : a + ((100 - 1 : ℕ) : ℝ) * ((b - a) / 99) = b := by
    push_cast
    field_simp
  rw [harg]

/- Helper: over a full turn the first and last samples coincide. -/
theorem circle_samples_closed (center : V2) (r a b : ℝ)
    (hb : b = a + 2 * Real.pi) :
    (circle_samples center r a b).head? = (circle_samples center r a b).getLast? := by
  rw [circle_samples_head, circle_samples_getLast, hb,
    Real.cos_add_two_pi, Real.sin_add_two_pi]

/- Helper: 360 degrees beyond any start angle is one full turn. -/
theorem radians_plus_360 (a : ℝ) : radians (a + 360) = radians a + 2 * Real.pi := by
  simp only [radians]
  ring

/--
C7: a CIRCLE (angle range defaulting to 0 to 360 degrees) and an ARC
are sampled at 100 angles and extraction yields exactly 99 segments,
the i-th joining consecutive sampled points around center plus offset;
over a full-circle angle range the first and last sampled points agree
exactly (hence within any floating tolerance).
-/
theorem circle_arc_sampling (layer : String) (center : V3) (r a b : ℝ)
    (off : V2) (lc : String → Option Color) :
    ((extract_lines (.prim ⟨layer, .arc center r a b⟩) off lc).1.length = 99) ∧
    ((extract_lines (.prim ⟨layer, .circle center r⟩) off lc).1.length = 99) ∧
    (∀ i : ℕ, i + 1 < 100 →
      (extract_lines (.prim ⟨layer, .arc center r a b⟩) off lc).1[i]? =
        some ((center.1 + off.1 + r * Real.cos (radians a + (i : ℝ) *
                 ((radians b - radians a) / 99)),
               center.2.1 + off.2 + r * Real.sin (radians a + (i : ℝ) *
                 ((radians b - radians a) / 99))),
              (center.1 + off.1 + r * Real.cos (radians a + ((i : ℕ) + 1 : ℝ) *
                 ((radians b - radians a) / 99)),
               center.2.1 + off.2 + r * Real.sin (radians a + ((i : ℕ) + 1 : ℝ) *
                 ((radians b - radians a) / 99))))) ∧
    ((circle_samples (center.1 + off.1, center.2.1 + off.2) r
        (radians 0) (radians 360)).head? =
      (circle_samples (center.1 + off.1, center.2.1 + off.2) r
        (radians 0) (radians 360)).getLast?) ∧
    (∀ a₀ : ℝ, (circle_samples (center.1 + off.1, center.2.1 + off.2) r
        (radians a₀) (radians (a₀ + 360))).head? =
      (circle_samples (center.1 + off.1, center.2.1 + off.2) r
        (radians a₀) (radians (a₀ + 360))).getLast?) := by
  refine ⟨?_, ?_, ?_, ?_, ?_⟩
  · simp only [extract_lines]
    rw [consecutivePairs_length, circle_samples_length]
  · simp only [extract_lines]
    rw [consecutivePairs_length, circle_samples_length]
  · intro i hi
    simp only [extract_lines]
    have hb1 : i + 1 < (circle_samples
        (center.1 + off.1, center.2.1 + off.2) r (radians a) (radians b)).length := by
      rw [circle_samples_length]
      omega
    rw [List.getElem?_eq_getElem (by rw [consecutivePairs_length, circle_samples_length]; omega)]
    have kp := consecutivePairs_getElem
      (circle_samples (center.1 + off.1, center.2.1 + off.2) r (radians a) (radians b)) i hb1
    have k0 := circle_samples_getElem
      (center.1 + off.1, center.2.1 + off.2) r (radians a) (radians b) i (by omega)
    have k1 := circle_samples_getElem
      (center.1 + off.1, center.2.1 + off.2) r (radians a) (radians b) (i + 1) (by omega)
    simp only [List.get_eq_getElem] at kp k0 k1
    rw [kp, k0, k1]
    push_cast
    ring_nf
  · exact circle_samples_closed _ r _ _ (by
      rw [show (360 : ℝ) = 0 + 360 by norm_num, radians_plus_360])
  · intro a₀
    exact circle_samples_closed _ r _ _ (radians_plus_360 a₀)

/--
Witness for C7: the first segment of a quarter arc of the unit circle
at the origin joins the samples at angles 0 and 90 / 99 degrees.
-/
theorem circle_arc_sampling_witness :
    (0 : ℕ) + 1 < 100 ∧
    (extract_lines (.prim ⟨"L", .arc (0, 0, 0) 1 0 90⟩) (0, 0) noColors).1[0]? =
      some (((((0 : ℝ), 0, 0) : V3).1 + ((0 : ℝ), (0 : ℝ)).1 + 1 *
              Real.cos (radians 0 + ((0 : ℕ) : ℝ) * ((radians 90 - radians 0) / 99)),
             (((0 : ℝ), 0, 0) : V3).2.1 + ((0 : ℝ), (0 : ℝ)).2 + 1 *
              Real.sin (radians 0 + ((0 : ℕ) : ℝ) * ((radians 90 - radians 0) / 99))),
            ((((0 : ℝ), 0, 0) : V3).1 + ((0 : ℝ), (0 : ℝ)).1 + 1 *
              Real.cos (radians 0 + (((0 : ℕ) : ℝ) + 1) * ((radians 90 - radians 0) / 99)),
             (((0 : ℝ), 0, 0) : V3).2.1 + ((0 : ℝ), (0 : ℝ)).2 + 1 *
              Real.sin (radians 0 + (((0 : ℕ) : ℝ) + 1) * ((radians 90 - radians 0) / 99)))) := by
  refine ⟨by norm_num, ?_⟩
  exact (circle_arc_sampling "L" (0, 0, 0) 1 0 90 (0, 0) noColors).2.2.1 0 (by norm_num)

/--
C5: when extraction produces no segments, no dimension segments and no
labels, plot_dxf takes the early return: it signals nothing rendered,
reaches no savefig call (writes no file) and raises nothing.
-/
theorem plot_nothing_rendered (blocks : String → List Ent)
    (lc : String → Option Color) (msp : List Entity)
    (h1 : (plot_collect blocks lc msp).all_lines = [])
    (h2 : (plot_collect blocks lc msp).dimension_lines = [])
    (h3 : (plot_collect blocks lc msp).all_anns = []) :
    plot_dxf blocks lc msp = .nothingRendered := by
  simp [plot_dxf, h1, h2, h3]

/--
Witness for C5: a model space holding only one unsupported entity
extracts to three empty lists and plot_dxf reports nothing rendered.
-/
theorem plot_nothing_rendered_witness :
    ((plot_collect noBlocks noColors mspUnsupported).all_lines = [] ∧
     (plot_collect noBlocks noColors mspUnsupported).dimension_lines = [] ∧
     (plot_collect noBlocks noColors mspUnsupported).all_anns = []) ∧
    plot_dxf noBlocks noColors mspUnsupported = .nothingRendered := by
  have h1 : (plot_collect noBlocks noColors mspUnsupported).all_lines = [] := rfl
  have h2 : (plot_collect noBlocks noColors mspUnsupported).dimension_lines = [] := rfl
  have h3 : (plot_collect noBlocks noColors mspUnsupported).all_anns = [] := rfl
  exact ⟨⟨h1, h2, h3⟩, plot_nothing_rendered noBlocks noColors mspUnsupported h1 h2 h3⟩

/- Helper: one loop step appends exactly the labels of its entity. -/
theorem plot_step_anns (blocks : String → List Ent) (lc : String → Option Color)
    (acc : CollectOut) (e : Entity) :
    (plot_step blocks lc acc e).all_anns =
      acc.all_anns ++ (process_dimension e lc).2 := by
  cases e with
  | prim p =>
    obtain ⟨l, d⟩ := p
    cases d <;> simp [plot_step, process_dimension]
  | dim d => simp [plot_step, process_dimension]

/- Helper: the labels plot_collect gathers, entity by entity. -/
theorem plot_collect_anns (blocks : String → List Ent) (lc : String → Option Color)
    (msp : List Entity) :
    (plot_collect blocks lc msp).all_anns =
      msp.flatMap fun e => (process_dimension e lc).2 := by
  suffices h : ∀ acc : CollectOut,
      (List.foldl (plot_step blocks lc) acc msp).all_anns =
        acc.all_anns ++ msp.flatMap fun e => (process_dimension e lc).2 by
    simpa [plot_collect] using h ⟨[], [], [], [], []⟩
  induction msp with
  | nil => intro acc; simp
  | cons e rest ih =>
    intro acc
    rw [List.foldl_cons, ih, plot_step_anns]
    simp [List.append_assoc]

/--
Counterexample to C4: two DIMENSION entities with the same text-anchor
position (0, 0) each emit a label — the extraction run keeps both, so
the labels are not deduplicated by anchor position.
-/
theorem dimension_dedupe_counterexample :
    ¬ ((plot_collect noBlocks noColors mspTwoDims).all_anns.Pairwise
        fun a b => a.position ≠ b.position) := by
  have h : (plot_collect noBlocks noColors mspTwoDims).all_anns =
      [⟨(0, 0), round2 1⟩, ⟨(0, 0), round2 2⟩] := rfl
  rw [h]
  intro hp
  rw [List.pairwise_cons] at hp
  exact hp.1 ⟨(0, 0), round2 2⟩ (List.mem_singleton.mpr rfl) rfl

/--
C4 as amended: in one extraction run every Dimension whose text-anchor
position and measurement are both obtainable emits exactly one label
carrying the measurement rounded to 2 decimal places, independently of
whether its anchor position was already used (process_dimension keeps
no position state, so there is no dedupe); a Dimension missing either
attribute emits no label and raises no failure; and in convert_to_image
the dimension branch itself emits no text at all (the append beside the
position-dedupe set is commented out), leaving the texts list unchanged.
-/
theorem dimension_label_amended (blocks : String → List Ent)
    (lc : String → Option Color) (msp : List Entity) :
    ((plot_collect blocks lc msp).all_anns =
      msp.flatMap fun e => (process_dimension e lc).2) ∧
    (∀ (layer : String) (virtual : List Ent) (tm : V2) (m : ℝ),
      (process_dimension (.dim ⟨layer, virtual, some tm, some m⟩) lc).2 =
        [⟨tm, round2 m⟩]) ∧
    (∀ (layer : String) (virtual : List Ent) (m : Option ℝ),
      (process_dimension (.dim ⟨layer, virtual, none, m⟩) lc).2 = []) ∧
    (∀ (layer : String) (virtual : List Ent) (tm : V2),
      (process_dimension (.dim ⟨layer, virtual, some tm, none⟩) lc).2 = []) ∧
    (∀ (layer : String) (tm : Option V2) (m : Option ℝ) (off : V2)
        (line_color : Color) (st : ConvState),
      (add_entity line_color st (.dim ⟨layer, [], tm, m⟩) off).texts = st.texts) := by
  refine ⟨plot_collect_anns blocks lc msp, ?_, ?_, ?_, ?_⟩
  · intro layer virtual tm m
    simp [process_dimension]
  · intro layer virtual m
    simp [process_dimension]
  · intro layer virtual tm
    simp [process_dimension]
  · intro layer tm m off line_color st
    cases tm with
    | none => rfl
    | some tm =>
      simp only [add_entity, List.foldl_nil]
      split <;> rfl

/- Helper: the convert_to_image limits of the single example segment. -/
theorem convert_image_limits_example :
    convert_image_limits [seg0] =
      some ((-(0.5 : ℝ), (10.5 : ℝ)), ((0 : ℝ), (0 : ℝ))) := by
  simp only [convert_image_limits, seg0, seg_points, List.flatMap_cons,
    List.flatMap_nil, List.map_cons, List.map_nil, List.append_nil,
    listMin, listMax, List.foldl_cons, List.foldl_nil]
  norm_num [min_def, max_def]

/--
Counterexample to C6: on the single segment from (0,0) to (10,0) the
view limits computed by convert_to_image are not expanded by one shared
margin — its per-axis margins give y-limits (0, 0), not (-0.5, 0.5) as
the claim asserts for the scene framer.
-/
theorem scene_framer_counterexample :
    convert_image_limits [seg0] ≠
      some ((-(0.5 : ℝ), (10.5 : ℝ)), (-(0.5 : ℝ), (0.5 : ℝ))) := by
  rw [convert_image_limits_example]
  intro hc
  rw [Option.some_inj, Prod.ext_iff] at hc
  have := hc.2
  rw [Prod.ext_iff] at this
  norm_num at this

/--
C6 as amended: plot_dxf's framer does expand the bounding box by one
shared margin max(width, height) * 0.05 on both axes — on the single
segment (0,0)-(10,0) it yields x-limits (-0.5, 10.5) and y-limits
(-0.5, 0.5), also end to end through plot_dxf — but convert_to_image's
framer uses a separate margin per axis (width * 0.05 on x and
height * 0.05 on y), so the same segment yields y-limits (0, 0) there.
-/
theorem scene_framer_amended :
    (∀ (s : Seg) (rest : List Seg),
      listMin ((seg_points (s :: rest)).map Prod.fst) - (plot_frame (s :: rest)).1.1 =
        (plot_frame (s :: rest)).1.2 - listMax ((seg_points (s :: rest)).map Prod.fst) ∧
      listMin ((seg_points (s :: rest)).map Prod.fst) - (plot_frame (s :: rest)).1.1 =
        listMin ((seg_points (s :: rest)).map Prod.snd) - (plot_frame (s :: rest)).2.1 ∧
      listMin ((seg_points (s :: rest)).map Prod.snd) - (plot_frame (s :: rest)).2.1 =
        (plot_frame (s :: rest)).2.2 - listMax ((seg_points (s :: rest)).map Prod.snd) ∧
      listMin ((seg_points (s :: rest)).map Prod.fst) - (plot_frame (s :: rest)).1.1 =
        (max (listMax ((seg_points (s :: rest)).map Prod.fst) -
              listMin ((seg_points (s :: rest)).map Prod.fst))
             (listMax ((seg_points (s :: rest)).map Prod.snd) -
              listMin ((seg_points (s :: rest)).map Prod.snd))) * 0.05) ∧
    plot_frame [seg0] = ((-(0.5 : ℝ), (10.5 : ℝ)), (-(0.5 : ℝ), (0.5 : ℝ))) ∧
    plot_dxf noBlocks noColors mspOneLine =
      .rendered (-(0.5 : ℝ), (10.5 : ℝ)) (-(0.5 : ℝ), (0.5 : ℝ)) ∧
    convert_image_limits [seg0] =
      some ((-(0.5 : ℝ), (10.5 : ℝ)), ((0 : ℝ), (0 : ℝ))) := by
  have hframe : plot_frame [seg0] =
      ((-(0.5 : ℝ), (10.5 : ℝ)), (-(0.5 : ℝ), (0.5 : ℝ))) := by
    simp only [plot_frame, seg0, seg_points, List.flatMap_cons,
      List.flatMap_nil, List.map_cons, List.map_nil, List.append_nil,
      listMin, listMax, List.foldl_cons, List.foldl_nil]
    norm_num [min_def, max_def]
  refine ⟨?_, hframe, ?_, convert_image_limits_example⟩
  · intro s rest
    simp only [plot_frame]
    refine ⟨by ring, by ring, by ring, by ring⟩
  · have houtcome : plot_dxf noBlocks noColors mspOneLine =
        .rendered (plot_frame [((0 + 0, 0 + 0), (10 + 0, 0 + 0))]).1
          (plot_frame [((0 + 0, 0 + 0), (10 + 0, 0 + 0))]).2 := rfl
    have hseg : ((((0 : ℝ) + 0, (0 : ℝ) + 0), ((10 : ℝ) + 0, (0 : ℝ) + 0)) : Seg) =
        seg0 := by
      simp only [seg0, Prod.ext_iff]
      norm_num
    rw [houtcome, hseg, hframe]

/- Helper: translating keeps the layer name. -/
theorem entity_translate_layer (v : V3) (e : Entity) :
    (e.translate v).layer = e.layer := by
  cases e <;> rfl

/- Helper: two 3D shifts compose into the shift by the vector sum. -/
theorem shift3_shift3 (v w p : V3) : shift3 w (shift3 v p) = shift3 (v + w) p := by
  simp only [shift3, Prod.ext_iff, Prod.fst_add, Prod.snd_add]
  refine ⟨by ring, by ring, by ring⟩

/- Helper: two 2D shifts compose into the shift by the vector sum. -/
theorem shift2_shift2 (v w p : V2) : shift2 w (shift2 v p) = shift2 (v + w) p := by
  simp only [shift2, Prod.ext_iff, Prod.fst_add, Prod.snd_add]
  refine ⟨by ring, by ring⟩

/- Helper: the zero 3D shift is the identity. -/
theorem shift3_zero (p : V3) : shift3 0 p = p := by
  simp [shift3, Prod.ext_iff]

/- Helper: the zero 2D shift is the identity. -/
theorem shift2_zero (p : V2) : shift2 0 p = p := by
  simp [shift2, Prod.ext_iff]

/- Helper: the 2D projection of a 3D vector sum. -/
theorem proj2_add (v w : V3) :
    (((v + w).1, (v + w).2.1) : V2) = ((v.1, v.2.1) + (w.1, w.2.1) : V2) := by
  simp [Prod.ext_iff]

/- Helper: translations of entity data compose. -/
theorem entData_translate_translate (v w : V3) (d : EntData) :
    (d.translate v).translate w = d.translate (v + w) := by
  have hmap : ∀ pts : List V2,
      (pts.map (shift2 (v.1, v.2.1))).map (shift2 (w.1, w.2.1)) =
        pts.map (shift2 ((v + w).1, (v + w).2.1)) := by
    intro pts
    rw [List.map_map]
    apply List.map_congr_left
    intro p _
    show shift2 (w.1, w.2.1) (shift2 (v.1, v.2.1) p) = _
    rw [shift2_shift2, proj2_add]
  cases d with
  | point location => simp [EntData.translate, shift3_shift3]
  | line s e => simp [EntData.translate, shift3_shift3]
  | circle center radius => simp [EntData.translate, shift3_shift3]
  | arc center radius a b => simp [EntData.translate, shift3_shift3]
  | polyline pts closed => simp [EntData.translate, hmap]
  | mtext ins txt => simp [EntData.translate, shift3_shift3]
  | insert name ins => simp [EntData.translate, shift3_shift3]
  | other => rfl

/- Helper: the zero translation fixes entity data. -/
theorem entData_translate_zero (d : EntData) : d.translate 0 = d := by
  have hmap : ∀ pts : List V2, pts.map (shift2 0) = pts := by
    intro pts
    rw [show pts.map (shift2 0) = pts.map id from
      List.map_congr_left fun p _ => shift2_zero p, List.map_id]
  cases d with
  | polyline pts closed => simp [EntData.translate, hmap]
  | _ => simp [EntData.translate, shift3_zero]

/- Helper: translations of a primitive entity compose. -/
theorem ent_translate_translate (v w : V3) (e : Ent) :
    (e.translate v).translate w = e.translate (v + w) := by
  simp [Ent.translate, entData_translate_translate]

/- Helper: the zero translation fixes a primitive entity. -/
theorem ent_translate_zero (e : Ent) : e.translate 0 = e := by
  simp [Ent.translate, entData_translate_zero]

/- Helper: translations of any model-space entity compose. -/
theorem entity_translate_translate (v w : V3) (e : Entity) :
    (e.translate v).translate w = e.translate (v + w) := by
  cases e with
  | prim p => simp [Entity.translate, ent_translate_translate]
  | dim d =>
    obtain ⟨layer, virtual, tm, m⟩ := d
    have hvirt : (virtual.map (Ent.translate v)).map (Ent.translate w) =
        virtual.map (Ent.translate (v + w)) := by
      rw [List.map_map]
      exact List.map_congr_left fun p _ => ent_translate_translate v w p
    have htm : (tm.map (shift2 (v.1, v.2.1))).map (shift2 (w.1, w.2.1)) =
        tm.map (shift2 ((v + w).1, (v + w).2.1)) := by
      cases tm with
      | none => rfl
      | some p =>
        show some (shift2 (w.1, w.2.1) (shift2 (v.1, v.2.1) p)) = _
        rw [shift2_shift2, proj2_add]
        rfl
    show Entity.dim ⟨layer, (virtual.map (Ent.translate v)).map (Ent.translate w),
        (tm.map (shift2 (v.1, v.2.1))).map (shift2 (w.1, w.2.1)), m⟩ =
      Entity.dim ⟨layer, virtual.map (Ent.translate (v + w)),
        tm.map (shift2 ((v + w).1, (v + w).2.1)), m⟩
    rw [hvirt, htm]

/- Helper: the zero translation fixes any model-space entity. -/
theorem entity_translate_zero (e : Entity) : e.translate 0 = e := by
  cases e with
  | prim p => simp [Entity.translate, ent_translate_zero]
  | dim d =>
    obtain ⟨layer, virtual, tm, m⟩ := d
    have hvirt : virtual.map (Ent.translate 0) = virtual := by
      rw [show virtual.map (Ent.translate 0) = virtual.map id from
        List.map_congr_left fun p _ => ent_translate_zero p, List.map_id]
    have htm : tm.map (shift2 (((0 : V3)).1, ((0 : V3)).2.1)) = tm := by
      cases tm with
      | none => rfl
      | some p =>
        show some (shift2 (((0 : V3)).1, ((0 : V3)).2.1) p) = some p
        rw [show ((((0 : V3)).1, ((0 : V3)).2.1) : V2) = 0 by simp [Prod.ext_iff],
          shift2_zero]
    show Entity.dim ⟨layer, virtual.map (Ent.translate 0),
        tm.map (shift2 (((0 : V3)).1, ((0 : V3)).2.1)), m⟩ = Entity.dim ⟨layer, virtual, tm, m⟩
    rw [hvirt, htm]

/-
Helper: a per-entity rewrite that fixes every entity of the reference
layer and preserves layers leaves the reference points unchanged.
-/
theorem get_points_map_fixed (f : Entity → Entity)
    (hlayer : ∀ e, (f e).layer = e.layer)
    (hfix : ∀ e, e.layer = "A02_Wall" → f e = e) (msp : List Entity) :
    get_points_from_layer (msp.map f) "A02_Wall" =
      get_points_from_layer msp "A02_Wall" := by
  simp only [get_points_from_layer, get_entities_by_layer]
  induction msp with
  | nil => rfl
  | cons e rest ih =>
    simp only [List.map_cons, List.filter_cons]
    by_cases h : (e.layer == "A02_Wall") = true
    · have hl : ((f e).layer == "A02_Wall") = true := by rw [hlayer]; exact h
      rw [if_pos hl, if_pos h, hfix e (by simpa using h)]
      simp only [List.filterMap_cons]
      rw [ih]
    · have hl : ¬ (((f e).layer == "A02_Wall") = true) := by rw [hlayer]; exact h
      rw [if_neg hl, if_neg h]
      exact ih

/- Helper: a successful move translates exactly the target layer. -/
theorem move_objects_success (o : String) (d : ℝ) (msp : List Entity)
    (h : (get_points_from_layer msp "A02_Wall").length = 2) :
    move_objects o d msp = (none, msp.map fun e =>
      if e.layer == "A10_Wood- Door Window Ventilator" then
        e.translate (moveVector d
          ((get_points_from_layer msp "A02_Wall").getD 0 (0, 0, 0))
          ((get_points_from_layer msp "A02_Wall").getD 1 (0, 0, 0)))
      else e) := by
  simp only [move_objects]
  rw [if_neg (by rw [h]; omega)]

/- Helper: opposite distances give opposite move vectors. -/
theorem moveVector_neg_add (d : ℝ) (p q : V3) :
    moveVector d p q + moveVector (-d) p q = 0 := by
  simp only [moveVector, Prod.ext_iff, Prod.fst_add, Prod.snd_add,
    Prod.fst_zero, Prod.snd_zero]
  refine ⟨by ring, by ring, by ring⟩

/--
C9: on a drawing meeting the two-reference-point precondition, moving
by distance d and then by -d restores every entity exactly — both calls
succeed, the reference points are re-read unchanged because they live
off the target layer, and the two opposite translations cancel — so
re-running extraction on the result reproduces the original segment
lists exactly (equality, hence within any tolerance).
-/
theorem move_roundtrip (msp : List Entity) (o₁ o₂ : String) (d : ℝ)
    (h : (get_points_from_layer msp "A02_Wall").length = 2) :
    (move_objects o₂ (-d) (move_objects o₁ d msp).2).2 = msp ∧
    (∀ (blocks : String → List Ent) (lc : String → Option Color),
      plot_collect blocks lc ((move_objects o₂ (-d) (move_objects o₁ d msp).2).2) =
        plot_collect blocks lc msp) := by
  have hmain : (move_objects o₂ (-d) (move_objects o₁ d msp).2).2 = msp := by
    rw [move_objects_success o₁ d msp h]
    set p₀ := (get_points_from_layer msp "A02_Wall").getD 0 (0, 0, 0) with hp₀
    set p₁ := (get_points_from_layer msp "A02_Wall").getD 1 (0, 0, 0) with hp₁
    set f : Entity → Entity := fun e =>
      if e.layer == "A10_Wood- Door Window Ventilator" then
        e.translate (moveVector d p₀ p₁) else e with hf
    have hlayer : ∀ e, (f e).layer = e.layer := by
      intro e
      rw [hf]
      by_cases hc : (e.layer == "A10_Wood- Door Window Ventilator") = true
      · simp only [if_pos hc, entity_translate_layer]
      · simp only [if_neg hc]
    have hfix : ∀ e, e.layer = "A02_Wall" → f e = e := by
      intro e he
      rw [hf]
      have : ¬ ((e.layer == "A10_Wood- Door Window Ventilator") = true) := by
        rw [he]
        decide
      simp only [if_neg this]
    have hpts : get_points_from_layer (msp.map f) "A02_Wall" =
        get_points_from_layer msp "A02_Wall" :=
      get_points_map_fixed f hlayer hfix msp
    rw [move_objects_success o₂ (-d) (msp.map f) (by rw [hpts]; exact h)]
    simp only [hpts, List.map_map]
    have hcancel : ∀ e : Entity,
        ((fun e2 => if e2.layer == "A10_Wood- Door Window Ventilator" then
            e2.translate (moveVector (-d) p₀ p₁) else e2) ∘ f) e = e := by
      intro e
      simp only [Function.comp_apply, hf]
      by_cases hc : (e.layer == "A10_Wood- Door Window Ventilator") = true
      · rw [if_pos hc, if_pos (by rw [entity_translate_layer]; exact hc),
          entity_translate_translate, moveVector_neg_add, entity_translate_zero]
      · rw [if_neg hc, if_neg hc]
    rw [show msp.map ((fun e2 => if e2.layer == "A10_Wood- Door Window Ventilator" then
        e2.translate (moveVector (-d) p₀ p₁) else e2) ∘ f) = msp.map id from
      List.map_congr_left fun e _ => hcancel e, List.map_id]
  exact ⟨hmain, fun blocks lc => by rw [hmain]⟩

/--
Witness for C9: the two-point example drawing satisfies the
precondition and a move by 1 followed by a move by -1 restores it.
-/
theorem move_roundtrip_witness :
    (get_points_from_layer mspTwoPoints "A02_Wall").length = 2 ∧
    (move_objects "door" (-(1 : ℝ)) (move_objects "door" 1 mspTwoPoints).2).2 =
      mspTwoPoints := by
  have h : (get_points_from_layer mspTwoPoints "A02_Wall").length = 2 := by decide
  exact ⟨h, (move_roundtrip mspTwoPoints "door" "door" 1 h).1⟩
